import Mathlib

/-!
Shallow embedding of the SAS attestation SDK (src/sdk) in Lean 4:
the payload codec (protocols/sas.py), the witness encoder (core/witness.py),
the transaction pipeline (core/transaction.py, sap.py, client.py), the
ledger-client fragments (infra/api.py) and the confirmation tracker
(confirmation.py), together with theorems settling specification claims.

Modelling conventions:
* Python `bytes` values are `List Nat` with every element < 256; producers
  are proved (or hypothesised) to stay below 256 where it matters.
* Python hex strings are the renderings produced by `bytesToHex`;
  `bytes.fromhex` is `pyFromHex` (strict pairs of hex digits; CPython
  additionally skips ASCII whitespace between byte pairs, which this
  embedding omits, so theorems quantifying over arbitrary strings restrict
  to whitespace-free inputs).
* Python exceptions are `Except` errors; a `try/except` block that turns
  any exception into a failure result is modelled by matching on the
  `Except` value.
* Monetary amounts are tracked in integer satoshis; the source converts
  them to BTC floats (sats / 100_000_000) only when rendering the engine
  wire format, an injective rendering for the amounts involved.
* The external contract engine (hal), the signer and the HTTP ledger are
  I/O collaborators; they enter the embedding as function-valued
  parameters, and the pipeline additionally returns the list of calls it
  made to them, so that claims of the form "the engine is never invoked"
  are provable.
-/

namespace SAS

/-! ### Constants (src/sdk/constants.py, src/sdk/protocols/sas.py) -/

/-- Transaction fee in satoshis (constants.py FEE_SATS). -/
def FEE_SATS : Nat := 500

/-- Certificate dust limit in satoshis (constants.py CERT_DUST_SATS). -/
def CERT_DUST_SATS : Nat := 546

/-- Minimum vault balance to issue a certificate (constants.py
MIN_ISSUE_SATS = 546 + 500 + 546 = 1592). -/
def MIN_ISSUE_SATS : Nat := CERT_DUST_SATS + FEE_SATS + CERT_DUST_SATS

/-- Magic bytes b"SAS" (protocols/sas.py SAPProtocol.MAGIC). -/
def MAGIC : List Nat := [0x53, 0x41, 0x53]

/-- Protocol version byte (SAPProtocol.VERSION). -/
def VERSION : Nat := 0x01

/-- Opcode byte for ATTEST records. -/
def TYPE_ATTEST : Nat := 0x01

/-- Opcode byte for REVOKE records. -/
def TYPE_REVOKE : Nat := 0x02

/-- Opcode byte for UPDATE records. -/
def TYPE_UPDATE : Nat := 0x03

/-- Maximum OP_RETURN data size (SAPProtocol.MAX_OP_RETURN_SIZE). -/
def MAX_OP_RETURN_SIZE : Nat := 80

/-- Header size: 3 magic + 1 version + 1 type (SAPProtocol.HEADER_SIZE). -/
def HEADER_SIZE : Nat := 5

/-- Maximum payload size, 75 bytes (SAPProtocol.MAX_PAYLOAD_SIZE). -/
def MAX_PAYLOAD_SIZE : Nat := MAX_OP_RETURN_SIZE - HEADER_SIZE

/-! ### Hex rendering and parsing

Python `bytes.hex()` produces lowercase pairs; `bytes.fromhex` parses
pairs of hex digits (case-insensitive).  `pyFromHex` returning `none`
models `bytes.fromhex` raising `ValueError`. -/

/-- Lowercase hex digit for a value below 16, as produced by `bytes.hex()`. -/
def hexDigitChar (n : Nat) : Char :=
  if n < 10 then Char.ofNat (48 + n) else Char.ofNat (87 + n)

/-- Rendering of a byte list as Python's `bytes.hex()` character list. -/
def bytesToHex (bs : List Nat) : List Char :=
  bs.flatMap fun b => [hexDigitChar (b / 16), hexDigitChar (b % 16)]

/-- Value of one hex digit character, accepting both cases, else `none`. -/
def hexCharVal (c : Char) : Option Nat :=
  if 48 ≤ c.toNat ∧ c.toNat ≤ 57 then some (c.toNat - 48)
  else if 97 ≤ c.toNat ∧ c.toNat ≤ 102 then some (c.toNat - 87)
  else if 65 ≤ c.toNat ∧ c.toNat ≤ 70 then some (c.toNat - 55)
  else none

/-- Model of `bytes.fromhex`: parses consecutive pairs of hex digits,
`none` on an odd length or a non-hex character (a `ValueError` in Python). -/
def pyFromHex : List Char → Option (List Nat)
  | [] => some []
  | [_] => none
  | c1 :: c2 :: rest =>
    match hexCharVal c1, hexCharVal c2, pyFromHex rest with
    | some h, some l, some bs => some ((16 * h + l) :: bs)
    | _, _, _ => none

theorem hexCharVal_hexDigitChar : ∀ d < 16, hexCharVal (hexDigitChar d) = some d := by
  decide

theorem pyFromHex_bytesToHex (bs : List Nat) (hb : ∀ b ∈ bs, b < 256) :
    pyFromHex (bytesToHex bs) = some bs := by
  induction bs with
  | nil => rfl
  | cons b rest ih =>
    have hblt : b < 256 := hb b (by simp)
    have h1 : b / 16 < 16 := by omega
    have h2 : b % 16 < 16 := by omega
    have e1 := hexCharVal_hexDigitChar (b / 16) h1
    have e2 := hexCharVal_hexDigitChar (b % 16) h2
    have ih' := ih (fun x hx => hb x (by simp [hx]))
    simp only [bytesToHex, List.flatMap_cons, List.cons_append, List.nil_append]
    simp only [bytesToHex] at ih'
    simp only [pyFromHex, e1, e2, ih']
    have : 16 * (b / 16) + b % 16 = b := by omega
    rw [this]

/-- Length relation for successful hex parses: each byte consumes two
characters. -/
theorem pyFromHex_length : ∀ (cs : List Char) (bs : List Nat),
    pyFromHex cs = some bs → 2 * bs.length = cs.length
  | [], bs, h => by
    simp only [pyFromHex, Option.some.injEq] at h
    subst h
    rfl
  | [c], bs, h => by
    simp only [pyFromHex] at h
    exact absurd h (by simp)
  | c1 :: c2 :: rest, bs, h => by
    simp only [pyFromHex] at h
    cases e1 : hexCharVal c1 with
    | none => rw [e1] at h; simp at h
    | some hv =>
      cases e2 : hexCharVal c2 with
      | none => rw [e1, e2] at h; simp at h
      | some lv =>
        cases e3 : pyFromHex rest with
        | none => rw [e1, e2, e3] at h; simp at h
        | some bs1 =>
          rw [e1, e2, e3] at h
          simp only [Option.some.injEq] at h
          subst h
          have := pyFromHex_length rest bs1 e3
          simp only [List.length_cons]
          omega

/-! ### UTF-8 codec (Python str.encode / bytes.decode) -/


/-- Validity of a character's code point, in `Nat` form. -/
theorem char_toNat_valid (c : Char) :
    c.toNat < 0xD800 ∨ (0xDFFF < c.toNat ∧ c.toNat < 0x110000) := by
  rcases c.valid with h | ⟨h1, h2⟩
  · left
    exact_mod_cast h
  · right
    constructor
    · exact_mod_cast h1
    · exact_mod_cast h2

/-- UTF-8 encoding of one Unicode scalar value (CPython `str.encode`). -/
def utf8EncodeChar (n : Nat) : List Nat :=
  if n < 0x80 then [n]
  else if n < 0x800 then [0xC0 + n / 64, 0x80 + n % 64]
  else if n < 0x10000 then [0xE0 + n / 4096, 0x80 + n / 64 % 64, 0x80 + n % 64]
  else [0xF0 + n / 262144, 0x80 + n / 4096 % 64, 0x80 + n / 64 % 64, 0x80 + n % 64]

/-- UTF-8 encoding of a string (Python `cid.encode("utf-8")`). -/
def utf8Encode (s : String) : List Nat :=
  s.data.flatMap fun c => utf8EncodeChar c.toNat

/-- Continuation byte test: a byte of the form `0b10xxxxxx`. -/
def contByte (b : Nat) : Bool := 0x80 ≤ b && b < 0xC0

/-- Number of continuation bytes demanded by a UTF-8 lead byte, `none` for
an invalid lead (continuation bytes, overlong leads 0xC0/0xC1, and leads
past 0xF4 are rejected, as CPython does). -/
def utf8Len (b : Nat) : Option Nat :=
  if b < 0x80 then some 0
  else if 0xC2 ≤ b ∧ b < 0xE0 then some 1
  else if 0xE0 ≤ b ∧ b < 0xF0 then some 2
  else if 0xF0 ≤ b ∧ b < 0xF5 then some 3
  else none

/-- Payload bits carried by a UTF-8 lead byte of the given class. -/
def utf8Acc (b : Nat) : Nat → Nat
  | 0 => b
  | 1 => b - 0xC0
  | 2 => b - 0xE0
  | _ => b - 0xF0

/-- Validity of the decoded scalar for a sequence of the given class:
rejects overlong encodings, surrogates and values past U+10FFFF. -/
def utf8Valid : Nat → Nat → Bool
  | 0, _ => true
  | 1, n => 0x80 ≤ n
  | 2, n => 0x800 ≤ n && !(0xD800 ≤ n && n ≤ 0xDFFF)
  | _, n => 0x10000 ≤ n && n < 0x110000

/-- Folding continuation-byte payloads into the accumulated scalar. -/
def contFold (acc : Nat) (bs : List Nat) : Nat :=
  bs.foldl (fun a x => a * 64 + (x - 0x80)) acc

/-- Fuel-driven strict UTF-8 decoder over code units; each step consumes
one lead byte plus its continuation bytes and one unit of fuel, so fuel
equal to the byte count always suffices. -/
def utf8DecodeAux : Nat → List Nat → Option (List Char)
  | _, [] => some []
  | 0, _ :: _ => none
  | fuel + 1, b :: rest =>
    match utf8Len b with
    | none => none
    | some k =>
      if k ≤ rest.length ∧ (rest.take k).all contByte then
        let n := contFold (utf8Acc b k) (rest.take k)
        if utf8Valid k n then (utf8DecodeAux fuel (rest.drop k)).map (Char.ofNat n :: ·)
        else none
      else none

/-- Strict UTF-8 decoder, mirroring CPython `bytes.decode("utf-8")`:
rejects overlong forms, surrogates, values past U+10FFFF and truncated
sequences; `none` models `UnicodeDecodeError`. -/
def utf8DecodeChars (bs : List Nat) : Option (List Char) :=
  utf8DecodeAux bs.length bs

theorem utf8EncodeChar_lt (n : Nat) (hn : n < 0x110000) :
    ∀ b ∈ utf8EncodeChar n, b < 256 := by
  intro b hb
  unfold utf8EncodeChar at hb
  split at hb
  · simp at hb
    omega
  · split at hb
    · simp at hb
      rcases hb with h | h <;> omega
    · split at hb
      · simp at hb
        rcases hb with h | h | h <;> omega
      · simp at hb
        rcases hb with h | h | h | h <;> omega

theorem utf8EncodeChar_length_pos (n : Nat) : 1 ≤ (utf8EncodeChar n).length := by
  unfold utf8EncodeChar
  split
  · simp
  · split
    · simp
    · split <;> simp

/-- Decoding one encoded character from the front of a byte stream. -/
theorem utf8DecodeAux_encodeChar (c : Char) (rest : List Nat) (fuel : Nat) :
    utf8DecodeAux (fuel + 1) (utf8EncodeChar c.toNat ++ rest) =
      (utf8DecodeAux fuel rest).map (c :: ·) := by
  have hv := char_toNat_valid c
  have hofNat := Char.ofNat_toNat c
  generalize hn : c.toNat = n at hv hofNat
  clear hn
  by_cases h1 : n < 0x80
  · rw [utf8EncodeChar, if_pos h1]
    simp only [List.cons_append, List.nil_append]
    rw [utf8DecodeAux]
    have hlen : utf8Len n = some 0 := by rw [utf8Len, if_pos h1]
    rw [hlen]
    simp only [List.take_zero, List.all_nil, List.drop_zero]
    rw [if_pos ⟨Nat.zero_le _, trivial⟩,
      show contFold (utf8Acc n 0) ([] : List Nat) = n from rfl,
      if_pos (show utf8Valid 0 n = true from rfl), hofNat]
  · by_cases h2 : n < 0x800
    · rw [utf8EncodeChar, if_neg h1, if_pos h2]
      simp only [List.cons_append, List.nil_append]
      rw [utf8DecodeAux]
      have hlen : utf8Len (0xC0 + n / 64) = some 1 := by
        rw [utf8Len, if_neg (by omega), if_pos (by omega)]
      rw [hlen]
      have hc : contByte (0x80 + n % 64) = true := by
        simp only [contByte, Bool.and_eq_true, decide_eq_true_eq]
        omega
      simp only [List.take_succ_cons, List.take_zero, List.all_cons, List.all_nil,
        List.drop_succ_cons, List.drop_zero, hc, Bool.and_self, List.length_cons]
      rw [if_pos (by constructor <;> simp),
        show contFold (utf8Acc (0xC0 + n / 64) 1) [0x80 + n % 64] =
          (0xC0 + n / 64 - 0xC0) * 64 + (0x80 + n % 64 - 0x80) from rfl]
      have hval : (0xC0 + n / 64 - 0xC0) * 64 + (0x80 + n % 64 - 0x80) = n := by omega
      rw [hval]
      have hvalid : utf8Valid 1 n = true := by
        rw [show utf8Valid 1 n = decide (0x80 ≤ n) from rfl, decide_eq_true_eq]
        omega
      rw [if_pos hvalid, hofNat]
    · by_cases h3 : n < 0x10000
      · rw [utf8EncodeChar, if_neg h1, if_neg h2, if_pos h3]
        simp only [List.cons_append, List.nil_append]
        rw [utf8DecodeAux]
        have hlen : utf8Len (0xE0 + n / 4096) = some 2 := by
          rw [utf8Len, if_neg (by omega), if_neg (by omega), if_pos (by omega)]
        rw [hlen]
        have hc2 : contByte (0x80 + n / 64 % 64) = true := by
          simp only [contByte, Bool.and_eq_true, decide_eq_true_eq]
          omega
        have hc3 : contByte (0x80 + n % 64) = true := by
          simp only [contByte, Bool.and_eq_true, decide_eq_true_eq]
          omega
        simp only [List.take_succ_cons, List.take_zero, List.all_cons, List.all_nil,
          List.drop_succ_cons, List.drop_zero, hc2, hc3, Bool.and_self, List.length_cons]
        rw [if_pos (by constructor <;> simp),
          show contFold (utf8Acc (0xE0 + n / 4096) 2) [0x80 + n / 64 % 64, 0x80 + n % 64] =
            ((0xE0 + n / 4096 - 0xE0) * 64 + (0x80 + n / 64 % 64 - 0x80)) * 64 +
              (0x80 + n % 64 - 0x80) from rfl]
        have e1 : n = 4096 * (n / 4096) + 64 * (n / 64 % 64) + n % 64 := by omega
        have hval : ((0xE0 + n / 4096 - 0xE0) * 64 + (0x80 + n / 64 % 64 - 0x80)) * 64 +
            (0x80 + n % 64 - 0x80) = n := by omega
        rw [hval]
        have hvalid : utf8Valid 2 n = true := by
          rw [show utf8Valid 2 n =
            (decide (0x800 ≤ n) && !(decide (0xD800 ≤ n) && decide (n ≤ 0xDFFF))) from rfl]
          simp only [Bool.and_eq_true, Bool.not_eq_true', Bool.and_eq_false_iff,
            decide_eq_true_eq, decide_eq_false_iff_not]
          omega
        rw [if_pos hvalid, hofNat]
      · rw [utf8EncodeChar, if_neg h1, if_neg h2, if_neg h3]
        have hup : n < 0x110000 := by omega
        simp only [List.cons_append, List.nil_append]
        rw [utf8DecodeAux]
        have hlen : utf8Len (0xF0 + n / 262144) = some 3 := by
          rw [utf8Len, if_neg (by omega), if_neg (by omega), if_neg (by omega),
            if_pos (by omega)]
        rw [hlen]
        have hc2 : contByte (0x80 + n / 4096 % 64) = true := by
          simp only [contByte, Bool.and_eq_true, decide_eq_true_eq]
          omega
        have hc3 : contByte (0x80 + n / 64 % 64) = true := by
          simp only [contByte, Bool.and_eq_true, decide_eq_true_eq]
          omega
        have hc4 : contByte (0x80 + n % 64) = true := by
          simp only [contByte, Bool.and_eq_true, decide_eq_true_eq]
          omega
        simp only [List.take_succ_cons, List.take_zero, List.all_cons, List.all_nil,
          List.drop_succ_cons, List.drop_zero, hc2, hc3, hc4, Bool.and_self,
          List.length_cons]
        rw [if_pos (by constructor <;> simp),
          show contFold (utf8Acc (0xF0 + n / 262144) 3)
              [0x80 + n / 4096 % 64, 0x80 + n / 64 % 64, 0x80 + n % 64] =
            (((0xF0 + n / 262144 - 0xF0) * 64 + (0x80 + n / 4096 % 64 - 0x80)) * 64 +
              (0x80 + n / 64 % 64 - 0x80)) * 64 + (0x80 + n % 64 - 0x80) from rfl]
        have e1 : n = 262144 * (n / 262144) + 4096 * (n / 4096 % 64) + 64 * (n / 64 % 64) +
            n % 64 := by omega
        have hval : (((0xF0 + n / 262144 - 0xF0) * 64 + (0x80 + n / 4096 % 64 - 0x80)) * 64 +
            (0x80 + n / 64 % 64 - 0x80)) * 64 + (0x80 + n % 64 - 0x80) = n := by omega
        rw [hval]
        have hvalid : utf8Valid 3 n = true := by
          rw [show utf8Valid 3 n =
            (decide (0x10000 ≤ n) && decide (n < 0x110000)) from rfl]
          simp only [Bool.and_eq_true, decide_eq_true_eq]
          omega
        rw [if_pos hvalid, hofNat]

/-- Round trip at the fuel level: fuel at least the character count
suffices to decode an encoded character list. -/
theorem utf8DecodeAux_encode_list : ∀ (cs : List Char) (fuel : Nat), cs.length ≤ fuel →
    utf8DecodeAux fuel (cs.flatMap fun c => utf8EncodeChar c.toNat) = some cs
  | [], fuel, _ => by
    cases fuel <;> rfl
  | c :: cs, fuel + 1, h => by
    rw [List.flatMap_cons, utf8DecodeAux_encodeChar,
      utf8DecodeAux_encode_list cs fuel (by simpa using h)]
    rfl

/-- Round trip: decoding an encoded string recovers its characters. -/
theorem utf8DecodeChars_utf8Encode (s : String) :
    utf8DecodeChars (utf8Encode s) = some s.data := by
  have hlen : s.data.length ≤ (utf8Encode s).length := by
    rw [utf8Encode]
    induction s.data with
    | nil => simp
    | cons c cs ih =>
      rw [List.flatMap_cons, List.length_append, List.length_cons]
      have := utf8EncodeChar_length_pos c.toNat
      omega
  exact utf8DecodeAux_encode_list s.data (utf8Encode s).length hlen


/-! ### SAS payload codec (src/sdk/protocols/sas.py SAPProtocol)

The Python encoders return `(header + payload).hex()`; the embedding
provides both the byte-level value (`...Bytes`) and the hex `String` the
source actually returns.  `decode` consumes raw bytes; `decode_hex` first
applies `bytes.fromhex` and maps a `ValueError` to `None`. -/

/-- Decoded SAS record (dataclasses SAPAttest / SAPRevoke / SAPUpdate). -/
inductive SASRecord where
  | attest (cid : String) (version : Nat)
  | revoke (txid : String) (vout : Nat) (reasonCode : Option Nat)
      (replacementTxid : Option String) (version : Nat)
  | update (cid : String) (version : Nat)
deriving DecidableEq, Repr

/-- Errors raised by the encoders: `payloadTooLarge` is
`PayloadTooLargeError`, `valueErr` is Python `ValueError` (from a failing
`bytes.fromhex`, a bad `reason_code` or a bad `replacement_txid`), and
`overflowErr` is the `OverflowError` of `vout.to_bytes(2, "big")`. -/
inductive EncodeErr where
  | payloadTooLarge (size : Nat)
  | valueErr (msg : String)
  | overflowErr
deriving DecidableEq, Repr

/-- Size validation (SAPProtocol.validate_payload_size): raises
`PayloadTooLargeError` when the payload exceeds 75 bytes. -/
def validate_payload_size (payload : List Nat) : Except EncodeErr Unit :=
  if payload.length > MAX_PAYLOAD_SIZE then .error (.payloadTooLarge payload.length)
  else .ok ()

/-- CID body bytes (shared logic of `encode_attest` / `encode_update` and
`TransactionBuilder._build_sas_attest_payload`): the CID is interpreted as
hex when `bytes.fromhex` accepts it, else encoded as UTF-8. -/
def cidBody (cid : String) : List Nat :=
  match pyFromHex cid.data with
  | some bs => bs
  | none => utf8Encode cid

/-- Byte-level body of `encode_attest` before hex rendering. -/
def encode_attest_bytes (cid : String) (validate : Bool) : Except EncodeErr (List Nat) :=
  let header := MAGIC ++ [VERSION, TYPE_ATTEST]
  let cidBytes := cidBody cid
  match (if validate then validate_payload_size cidBytes else .ok ()) with
  | .error e => .error e
  | .ok _ => .ok (header ++ cidBytes)

/-- Model of SAPProtocol.encode_attest: hex rendering of header ‖ body. -/
def encode_attest (cid : String) (validate : Bool) : Except EncodeErr String :=
  (encode_attest_bytes cid validate).map fun bs => String.mk (bytesToHex bs)

/-- Body bytes contributed by the optional `reason_code` argument of
`encode_revoke`, re-raising its range check. -/
def reasonPart (reasonCode : Option Int) : Except EncodeErr (List Nat) :=
  match reasonCode with
  | none => .ok []
  | some rc =>
    if rc < 0 ∨ 255 < rc then .error (.valueErr "reason_code must be between 0 and 255")
    else .ok [rc.toNat]

/-- Body bytes contributed by the optional `replacement_txid` argument of
`encode_revoke`: requires `reason_code`, a 64-character string, and a
successful `bytes.fromhex`. -/
def replacementPart (reasonCode : Option Int) (replacementTxid : Option String) :
    Except EncodeErr (List Nat) :=
  match replacementTxid with
  | none => .ok []
  | some r =>
    if reasonCode.isNone then .error (.valueErr "replacement_txid requires reason_code")
    else if r.length ≠ 64 then .error (.valueErr "replacement_txid must be 64 hex characters")
    else match pyFromHex r.data with
      | none => .error (.valueErr "non-hexadecimal number found in fromhex() arg")
      | some rb => .ok rb

/-- Byte-level model of SAPProtocol.encode_revoke: header ‖ txid-bytes ‖
vout(u16 BE) ‖ [reason] ‖ [replacement], with the source's check order:
`bytes.fromhex(txid)` first, then `vout.to_bytes(2, "big")`, then the
reason-code range check, then the replacement checks, then the size
validation.  The txid's length is NOT checked (only its hex-parsability),
unlike `replacement_txid`. -/
def encode_revoke_bytes (txid : String) (vout : Int) (reasonCode : Option Int)
    (replacementTxid : Option String) : Except EncodeErr (List Nat) :=
  let header := MAGIC ++ [VERSION, TYPE_REVOKE]
  match pyFromHex txid.data with
  | none => .error (.valueErr "non-hexadecimal number found in fromhex() arg")
  | some txidBytes =>
    if vout < 0 ∨ 65536 ≤ vout then .error .overflowErr
    else
      match reasonPart reasonCode with
      | .error e => .error e
      | .ok reasonBytes =>
        match replacementPart reasonCode replacementTxid with
        | .error e => .error e
        | .ok replacementBytes =>
          let payload := txidBytes ++ [vout.toNat / 256, vout.toNat % 256] ++
            reasonBytes ++ replacementBytes
          match validate_payload_size payload with
          | .error e => .error e
          | .ok _ => .ok (header ++ payload)

/-- Model of SAPProtocol.encode_revoke returning the hex string. -/
def encode_revoke (txid : String) (vout : Int) (reasonCode : Option Int)
    (replacementTxid : Option String) : Except EncodeErr String :=
  (encode_revoke_bytes txid vout reasonCode replacementTxid).map fun bs =>
    String.mk (bytesToHex bs)

/-- CID recovery used by `decode` for ATTEST/UPDATE payloads: UTF-8 when
decodable, else the lowercase hex rendering (`payload.hex()`). -/
def decodeCid (payload : List Nat) : String :=
  match utf8DecodeChars payload with
  | some cs => String.mk cs
  | none => String.mk (bytesToHex payload)

/-- Model of SAPProtocol.decode: magic, version and opcode checks, then the
per-opcode payload parse.  REVOKE accepts body lengths 34, 35 and 67 only;
ATTEST and UPDATE accept any body length. -/
def decode (data : List Nat) : Option SASRecord :=
  match data with
  | m1 :: m2 :: m3 :: version :: opType :: payload =>
    if [m1, m2, m3] ≠ MAGIC then none
    else if version ≠ VERSION then none
    else if opType = TYPE_ATTEST then some (.attest (decodeCid payload) version)
    else if opType = TYPE_REVOKE then
      if payload.length < 34 then none
      else
        let txid := String.mk (bytesToHex (payload.take 32))
        let vout := 256 * (payload.drop 32).headI + (payload.drop 33).headI
        if payload.length = 34 then some (.revoke txid vout none none version)
        else if payload.length = 35 then
          some (.revoke txid vout ((payload.drop 34).head?) none version)
        else if payload.length = 67 then
          some (.revoke txid vout ((payload.drop 34).head?)
            (some (String.mk (bytesToHex ((payload.drop 35).take 32)))) version)
        else none
    else if opType = TYPE_UPDATE then some (.update (decodeCid payload) version)
    else none
  | _ => none

/-- Model of SAPProtocol.decode_hex: `bytes.fromhex` then `decode`, with a
`ValueError` mapped to `None`. -/
def decode_hex (hexData : String) : Option SASRecord :=
  match pyFromHex hexData.data with
  | some bs => decode bs
  | none => none

/-! ### Witness encoder (src/sdk/core/witness.py WitnessEncoder)

The source functions return hex strings (`_bits_to_hex` packs the bits
into bytes and renders `bytes.hex()`); the embedding works with the packed
byte lists, the hex rendering being the bijective `bytesToHex` image. -/

/-- Bits of one byte, MSB first (Python `format(b, "08b")` for b < 256). -/
def byteToBits (b : Nat) : List Bool :=
  [b.testBit 7, b.testBit 6, b.testBit 5, b.testBit 4,
   b.testBit 3, b.testBit 2, b.testBit 1, b.testBit 0]

/-- Model of WitnessEncoder._signature_to_bits: demands exactly 64 bytes
and yields the 512 signature bits, MSB first. -/
def signature_to_bits (signature : List Nat) : Except String (List Bool) :=
  if signature.length ≠ 64 then
    .error ("Signature must be 64 bytes, got " ++ toString signature.length)
  else .ok (signature.flatMap byteToBits)

/-- Behaviour of `_signature_to_bits` when handed a `str` instead of
`bytes` — which is what `finalize_with_signature` does by passing
`signature.hex()`: the length check counts characters (two per byte), and
even a 64-character string fails afterwards because `format(c, "08b")`
raises `TypeError` on a character.  The call therefore always raises. -/
def signature_to_bits_of_str (s : List Char) : Except String (List Bool) :=
  if s.length ≠ 64 then
    .error ("Signature must be 64 bytes, got " ++ toString s.length)
  else .error "Unknown format code b for object of type str"

/-- Byte assembled from eight bits, MSB first. -/
def bitsToByte (b7 b6 b5 b4 b3 b2 b1 b0 : Bool) : Nat :=
  128 * b7.toNat + 64 * b6.toNat + 32 * b5.toNat + 16 * b4.toNat +
    8 * b3.toNat + 4 * b2.toNat + 2 * b1.toNat + b0.toNat

/-- Packing of a bit list into bytes, eight at a time. -/
def bitsToBytesCore : List Bool → List Nat
  | b7 :: b6 :: b5 :: b4 :: b3 :: b2 :: b1 :: b0 :: rest =>
    bitsToByte b7 b6 b5 b4 b3 b2 b1 b0 :: bitsToBytesCore rest
  | _ => []

/-- Model of WitnessEncoder._bits_to_hex: demands a bit count that is a
multiple of eight and yields the packed bytes (whose hex rendering the
source returns). -/
def bits_to_bytes (bits : List Bool) : Except String (List Nat) :=
  if bits.length % 8 ≠ 0 then
    .error ("Bit string length must be multiple of 8, got " ++ toString bits.length)
  else .ok (bitsToBytesCore bits)

/-- Shared shape of the five witness encoders: signature bits are computed
first (raising on a bad signature), then tag bits, signature bits and zero
padding are concatenated and packed. -/
def encodeWitnessCore (sigBitsRes : Except String (List Bool)) (tag : List Bool)
    (pad : Nat) : Except String (List Nat) :=
  match sigBitsRes with
  | .error e => .error e
  | .ok sigBits => bits_to_bytes (tag ++ sigBits ++ List.replicate pad false)

/-- Vault Left path: drain, tag bit 0, 7 padding bits. -/
def vault_admin_unconditional (signature : List Nat) : Except String (List Nat) :=
  encodeWitnessCore (signature_to_bits signature) [false] 7

/-- Vault Right-Left path: admin issue, tag bits 10, 6 padding bits. -/
def vault_admin_issue (signature : List Nat) : Except String (List Nat) :=
  encodeWitnessCore (signature_to_bits signature) [true, false] 6

/-- Vault Right-Right path: delegate issue, tag bits 11, 6 padding bits. -/
def vault_delegate_issue (signature : List Nat) : Except String (List Nat) :=
  encodeWitnessCore (signature_to_bits signature) [true, true] 6

/-- Certificate Left path: admin revoke, tag bit 0, 7 padding bits. -/
def certificate_admin (signature : List Nat) : Except String (List Nat) :=
  encodeWitnessCore (signature_to_bits signature) [false] 7

/-- Certificate Right path: delegate revoke, tag bit 1, 7 padding bits. -/
def certificate_delegate (signature : List Nat) : Except String (List Nat) :=
  encodeWitnessCore (signature_to_bits signature) [true] 7

/-- The five spending paths of the two contracts. -/
inductive SpendingPath where
  | vaultAdminUnconditional
  | vaultAdminIssue
  | vaultDelegateIssue
  | certificateAdmin
  | certificateDelegate
deriving DecidableEq, Repr

/-- Tag bits of each spending path, MSB first, per the table in the
WitnessEncoder docstrings. -/
def tagBits : SpendingPath → List Bool
  | .vaultAdminUnconditional => [false]
  | .vaultAdminIssue => [true, false]
  | .vaultDelegateIssue => [true, true]
  | .certificateAdmin => [false]
  | .certificateDelegate => [true]

/-- Dispatch to the per-path encoder. -/
def encodeWitness (p : SpendingPath) (signature : List Nat) : Except String (List Nat) :=
  match p with
  | .vaultAdminUnconditional => vault_admin_unconditional signature
  | .vaultAdminIssue => vault_admin_issue signature
  | .vaultDelegateIssue => vault_delegate_issue signature
  | .certificateAdmin => certificate_admin signature
  | .certificateDelegate => certificate_delegate signature

/-- Signer roles (Python Literal strings "admin" / "delegate"). -/
inductive Role where
  | admin
  | delegate
deriving DecidableEq, Repr

/-- Model of WitnessEncoder.encode_vault_witness. -/
def encode_vault_witness (signature : List Nat) (issuer : Role) (unconditional : Bool) :
    Except String (List Nat) :=
  match issuer with
  | .admin =>
    if unconditional then vault_admin_unconditional signature
    else vault_admin_issue signature
  | .delegate => vault_delegate_issue signature

/-- Model of WitnessEncoder.encode_certificate_witness. -/
def encode_certificate_witness (signature : List Nat) (revoker : Role) :
    Except String (List Nat) :=
  match revoker with
  | .admin => certificate_admin signature
  | .delegate => certificate_delegate signature

/-- Str-argument variants reached from `finalize_with_signature`, which
passes the signature's hex string where bytes are expected. -/
def encode_vault_witness_str (s : List Char) (issuer : Role) (unconditional : Bool) :
    Except String (List Nat) :=
  match issuer with
  | .admin =>
    if unconditional then encodeWitnessCore (signature_to_bits_of_str s) [false] 7
    else encodeWitnessCore (signature_to_bits_of_str s) [true, false] 6
  | .delegate => encodeWitnessCore (signature_to_bits_of_str s) [true, true] 6

/-- Str-argument variant of encode_certificate_witness. -/
def encode_certificate_witness_str (s : List Char) (revoker : Role) :
    Except String (List Nat) :=
  match revoker with
  | .admin => encodeWitnessCore (signature_to_bits_of_str s) [false] 7
  | .delegate => encodeWitnessCore (signature_to_bits_of_str s) [true] 7

/-- Zero signature used by the dummy witnesses. -/
def dummySig : List Nat := List.replicate 64 0

/-- Dummy witness bytes for a path (WitnessEncoder.vault_dummy /
certificate_dummy): correct tag bits with a zero signature. -/
def dummyWitness (p : SpendingPath) : List Nat :=
  (encodeWitness p dummySig).toOption.getD []

theorem byteToBits_bitsToByte : ∀ b7 b6 b5 b4 b3 b2 b1 b0 : Bool,
    byteToBits (bitsToByte b7 b6 b5 b4 b3 b2 b1 b0) = [b7, b6, b5, b4, b3, b2, b1, b0] := by
  decide

/-- Packing is inverted by unpacking on bit lists of byte granularity, and
produces one byte per eight bits. -/
theorem bitsToBytesCore_spec : ∀ bits : List Bool, bits.length % 8 = 0 →
    8 * (bitsToBytesCore bits).length = bits.length ∧
      (bitsToBytesCore bits).flatMap byteToBits = bits
  | [], _ => by constructor <;> rfl
  | [_], h => by simp at h
  | [_, _], h => by simp at h
  | [_, _, _], h => by simp at h
  | [_, _, _, _], h => by simp at h
  | [_, _, _, _, _], h => by simp at h
  | [_, _, _, _, _, _], h => by simp at h
  | [_, _, _, _, _, _, _], h => by simp at h
  | b7 :: b6 :: b5 :: b4 :: b3 :: b2 :: b1 :: b0 :: rest, h => by
    have hrest : rest.length % 8 = 0 := by
      simp only [List.length_cons] at h
      omega
    have ih := bitsToBytesCore_spec rest hrest
    rw [bitsToBytesCore]
    refine ⟨by simp only [List.length_cons]; omega, ?_⟩
    rw [List.flatMap_cons, byteToBits_bitsToByte, ih.2]
    rfl

theorem flatMap_byteToBits_length (bs : List Nat) :
    (bs.flatMap byteToBits).length = 8 * bs.length := by
  induction bs with
  | nil => rfl
  | cons b rest ih =>
    rw [List.flatMap_cons, List.length_append, ih, List.length_cons]
    simp only [byteToBits, List.length_cons, List.length_nil]
    omega

/-- Successful encoding for a 64-byte signature, in closed form. -/
theorem encodeWitness_ok (p : SpendingPath) (sig : List Nat) (hlen : sig.length = 64) :
    encodeWitness p sig =
      .ok (bitsToBytesCore (tagBits p ++ sig.flatMap byteToBits ++
        List.replicate (8 - (tagBits p).length) false)) := by
  have hbits : (sig.flatMap byteToBits).length = 512 := by
    rw [flatMap_byteToBits_length, hlen]
  cases p <;>
    simp only [encodeWitness, vault_admin_unconditional, vault_admin_issue,
      vault_delegate_issue, certificate_admin, certificate_delegate, encodeWitnessCore,
      signature_to_bits, hlen, tagBits, bits_to_bytes] <;>
    simp [List.length_append, hbits]

/-- Failure for a wrong-length signature. -/
theorem encodeWitness_err (p : SpendingPath) (sig : List Nat) (hlen : sig.length ≠ 64) :
    encodeWitness p sig =
      .error ("Signature must be 64 bytes, got " ++ toString sig.length) := by
  cases p <;>
    simp only [encodeWitness, vault_admin_unconditional, vault_admin_issue,
      vault_delegate_issue, certificate_admin, certificate_delegate, encodeWitnessCore,
      signature_to_bits] <;>
    rw [if_pos hlen]

/-! ### Ledger client (src/sdk/infra/api.py BlockstreamAPI) and
certificate verification (src/sdk/client.py SAPClient.verify_certificate) -/

/-- Transaction result (models.py TransactionResult; explorer_url omitted). -/
structure TxResult where
  success : Bool
  txid : Option String
  rawHex : Option String
  error : Option String
deriving DecidableEq, Repr

/-- Response of one `GET /tx/{txid}/outspend/{vout}` query: the JSON
body's optional `spent` field on success, or a transport failure
(`requests.RequestException`, surfaced as `BlockstreamAPIError`). -/
inductive OutspendResp where
  | ok (spent : Option Bool)
  | netError (msg : String)
deriving DecidableEq, Repr

/-- Model of BlockstreamAPI.is_utxo_spent: `spending.get("spent", False)`
on success, and `False` when the request raises `BlockstreamAPIError` —
the network failure is swallowed by the `except` clause. -/
def is_utxo_spent (resp : OutspendResp) : Bool :=
  match resp with
  | .ok spent => spent.getD false
  | .netError _ => false

/-- Certificate status enumeration (models.py CertificateStatus). -/
inductive CertStatus where
  | valid
  | revoked
  | unknown
deriving DecidableEq, Repr

/-- Model of SAPClient.verify_certificate: REVOKED when the outspend
query reports spent, VALID otherwise. -/
def verify_certificate (resp : OutspendResp) : CertStatus :=
  if is_utxo_spent resp then .revoked else .valid

/-! ### Transaction pipeline (src/sdk/core/transaction.py TransactionBuilder)

The hal engine, the signer and the ledger broadcast are I/O
collaborators, passed in as an `Env` of function values; an `.error`
models a raised exception, which the builder's `try/except` converts into
a failure `TransactionResult`.  Every call made to a collaborator is also
recorded in an ordered log, so that "the engine was never invoked" is a
statement about the returned log. -/

/-- Unspent transaction output (models.py UTXO; asset/script omitted as
unused by the modelled paths). -/
structure UTXOv where
  txid : String
  vout : Nat
  value : Nat
deriving DecidableEq, Repr

/-- Compiled contract entry of the registry (core/contracts.py). -/
structure ContractInfo where
  address : String
  scriptPubkey : String
  cmr : String
  program : String
deriving DecidableEq, Repr

/-- Contract registry (core/contracts.py ContractRegistry). -/
structure Registry where
  vault : ContractInfo
  certificate : ContractInfo
  assetId : String
  internalKey : String
deriving DecidableEq, Repr

/-- Output dict handed to `pset_create` ({"address", "asset", "amount"}).
The source renders `amount` as sats / 100_000_000; the embedding records
the satoshi count.  Null-data outputs use the source's "data:<hex>"
address convention and fee outputs the address "fee". -/
structure OutputDict where
  address : String
  asset : String
  amountSats : Nat
deriving DecidableEq, Repr

/-- Jet execution result (models.py JetResult; output_value omitted). -/
structure JetResultV where
  jet : String
  success : Bool
deriving DecidableEq, Repr

/-- Run result of `pset_run` (models.py RunResult). -/
structure RunResultV where
  success : Bool
  jets : List JetResultV
  sigAllHash : Option String
deriving DecidableEq, Repr

/-- One call to an external collaborator, in the order made. -/
inductive Call where
  | psetCreate (inputs : List (String × Nat)) (outputs : List OutputDict)
  | psetUpdateInput (index : Nat) (scriptPubkey asset : String) (amountSats : Nat)
      (cmr internalKey : String)
  | psetRun (index : Nat) (program : String) (witness : List Nat)
  | signHash (digest : String)
  | psetFinalize (index : Nat) (program : String) (witness : List Nat)
  | psetExtract
  | broadcastTx (txHex : String)
deriving DecidableEq, Repr

/-- Behaviour of the external collaborators: hal subcommands
(infra/hal.py), the signer (infra/keys.py KeyManager.sign_hash) and the
ledger broadcast (infra/api.py BlockstreamAPI.broadcast). -/
structure Env where
  psetCreate : List (String × Nat) → List OutputDict → Except String String
  psetUpdateInput : String → Nat → String → String → Nat → String → String →
    Except String String
  psetRun : String → Nat → String → List Nat → Except String RunResultV
  signHash : String → Except String (List Nat)
  psetFinalize : String → Nat → String → List Nat → Except String String
  psetExtract : String → Except String String
  broadcastTx : String → TxResult

/-- Failure result carrying only an error message. -/
def failResult (e : String) : TxResult := ⟨false, none, none, some e⟩

/-- Model of TransactionBuilder._execute_transaction: the eight-step PSET
workflow.  `run_result.sig_all_hash` is checked with Python falsiness
(both `None` and `""` fail); a verify run with `success = False` reports
the failing jets; any collaborator exception becomes a failure result. -/
def executeTransaction (env : Env) (inputs : List (String × Nat))
    (outputs : List OutputDict) (contract : ContractInfo) (assetId internalKey : String)
    (utxoValue : Nat) (dummyW : List Nat)
    (witnessEncoder : List Nat → Except String (List Nat)) (broadcast : Bool) :
    TxResult × List Call :=
  let log1 := [Call.psetCreate inputs outputs]
  match env.psetCreate inputs outputs with
  | .error e => (failResult e, log1)
  | .ok pset =>
    let log2 := log1 ++ [Call.psetUpdateInput 0 contract.scriptPubkey assetId utxoValue
      contract.cmr internalKey]
    match env.psetUpdateInput pset 0 contract.scriptPubkey assetId utxoValue
        contract.cmr internalKey with
    | .error e => (failResult e, log2)
    | .ok pset2 =>
      let log3 := log2 ++ [Call.psetRun 0 contract.program dummyW]
      match env.psetRun pset2 0 contract.program dummyW with
      | .error e => (failResult e, log3)
      | .ok runResult =>
        match runResult.sigAllHash with
        | none => (failResult "Failed to extract sig_all_hash", log3)
        | some sigHash =>
          if sigHash.isEmpty then (failResult "Failed to extract sig_all_hash", log3)
          else
            let log4 := log3 ++ [Call.signHash sigHash]
            match env.signHash sigHash with
            | .error e => (failResult e, log4)
            | .ok signature =>
              match witnessEncoder signature with
              | .error e => (failResult e, log4)
              | .ok witness =>
                let log5 := log4 ++ [Call.psetRun 0 contract.program witness]
                match env.psetRun pset2 0 contract.program witness with
                | .error e => (failResult e, log5)
                | .ok verifyResult =>
                  if ¬ verifyResult.success then
                    (failResult ("Verification failed. Failed jets: " ++
                      String.intercalate ", "
                        (((verifyResult.jets.filter fun j => ¬ j.success).map
                          fun j => j.jet))), log5)
                  else
                    let log6 := log5 ++ [Call.psetFinalize 0 contract.program witness]
                    match env.psetFinalize pset2 0 contract.program witness with
                    | .error e => (failResult e, log6)
                    | .ok finalizedPset =>
                      let log7 := log6 ++ [Call.psetExtract]
                      match env.psetExtract finalizedPset with
                      | .error e => (failResult e, log7)
                      | .ok txHex =>
                        if broadcast then
                          (env.broadcastTx txHex, log7 ++ [Call.broadcastTx txHex])
                        else
                          (⟨true, none, some txHex, none⟩, log7)

/-- Model of TransactionBuilder._build_sas_attest_payload: header ‖ CID
bytes rendered as hex — note: WITHOUT the 75-byte validation of the
protocol encoder. -/
def build_sas_attest_payload (cid : String) : String :=
  String.mk (bytesToHex (MAGIC ++ [VERSION, TYPE_ATTEST] ++ cidBody cid))

/-- Model of TransactionBuilder.issue_certificate: the guard
`change_sats < CERT_DUST_SATS` (computed over Python ints, hence on ℤ),
then the four outputs in issuance order — vault change, certificate dust,
null-data ATTEST payload, fee — then the eight-step pipeline on the vault
contract with the issuer's spending path. -/
def issue_certificate (env : Env) (reg : Registry) (vaultUtxo : UTXOv) (cid : String)
    (issuer : Role) (broadcast : Bool) : TxResult × List Call :=
  let changeSats : Int := (vaultUtxo.value : Int) - (FEE_SATS : Int) - (CERT_DUST_SATS : Int)
  if changeSats < (CERT_DUST_SATS : Int) then
    (failResult ("Insufficient funds: " ++ toString vaultUtxo.value ++ " sats"), [])
  else
    let sapPayload := build_sas_attest_payload cid
    let outputs : List OutputDict := [
      ⟨reg.vault.address, reg.assetId, changeSats.toNat⟩,
      ⟨reg.certificate.address, reg.assetId, CERT_DUST_SATS⟩,
      ⟨"data:" ++ sapPayload, reg.assetId, 0⟩,
      ⟨"fee", reg.assetId, FEE_SATS⟩]
    let dummyW := if issuer = .admin then dummyWitness .vaultAdminIssue
      else dummyWitness .vaultDelegateIssue
    executeTransaction env [(vaultUtxo.txid, vaultUtxo.vout)] outputs reg.vault
      reg.assetId reg.internalKey vaultUtxo.value dummyW
      (fun sig => encode_vault_witness sig issuer false) broadcast

/-- Model of TransactionBuilder.finalize_with_signature.  The source
computes `sig_hex = signature.hex()` and passes that STRING to the
witness encoders, which demand 64 bytes; for a 64-byte signature the hex
string has 128 characters, so the encoder raises, the `except` clause
catches, and neither the engine nor the broadcast is ever reached. -/
def finalize_with_signature (env : Env) (pset : String) (inputIndex : Nat)
    (program : String) (witnessTemplate : String) (signature : List Nat)
    (issuer : Role) (broadcast : Bool) : TxResult × List Call :=
  let sigHex := bytesToHex signature
  let witnessRes : Except String (List Nat) :=
    if witnessTemplate = "vault_issue" then encode_vault_witness_str sigHex issuer false
    else if witnessTemplate = "vault_drain" then encode_vault_witness_str sigHex .admin true
    else if witnessTemplate = "certificate" then encode_certificate_witness_str sigHex issuer
    else .error ("Unknown witness_template: " ++ witnessTemplate)
  match witnessRes with
  | .error e => (failResult e, [])
  | .ok witness =>
    let log1 := [Call.psetFinalize inputIndex program witness]
    match env.psetFinalize pset inputIndex program witness with
    | .error e => (failResult e, log1)
    | .ok finalizedPset =>
      let log2 := log1 ++ [Call.psetExtract]
      match env.psetExtract finalizedPset with
      | .error e => (failResult e, log2)
      | .ok txHex =>
        if broadcast then (env.broadcastTx txHex, log2 ++ [Call.broadcastTx txHex])
        else (⟨true, none, some txHex, none⟩, log2)

/-! ### Prepared transactions and client finalize
(src/sdk/prepared.py, src/sdk/client.py SAPClient.finalize_transaction) -/

/-- Transaction types (prepared.py TransactionType). -/
inductive TxType where
  | issueCertificate
  | revokeCertificate
  | drainVault
deriving DecidableEq, Repr

/-- Model of prepared.py PreparedTransaction.  The dataclass carries no
consumed flag, and no field of it is ever written after construction
(details map omitted as display-only). -/
structure PreparedTx where
  txType : TxType
  createdAt : Int
  sigHash : String
  signerRole : Role
  requiredPubkey : String
  pset : String
  inputIndex : Nat
  program : String
  witnessTemplate : String
  expiresAt : Option Int
deriving DecidableEq, Repr

/-- Model of PreparedTransaction.is_expired (`time.time() > expires_at`). -/
def isExpired (p : PreparedTx) (now : Int) : Bool :=
  match p.expiresAt with
  | none => false
  | some t => t < now

/-- Model of SAPClient.finalize_transaction: a signature-length gate, an
expiry gate, then TransactionBuilder.finalize_with_signature on the
carried fields.  Event emission does not affect the result and is
omitted.  The prepared object is only read, never written. -/
def finalize_transaction (env : Env) (p : PreparedTx) (signature : List Nat)
    (now : Int) (broadcast : Bool) : TxResult × List Call :=
  if signature.length ≠ 64 then
    (failResult ("Invalid signature length: expected 64 bytes, got " ++
      toString signature.length), [])
  else if isExpired p now then
    (failResult "Prepared transaction has expired", [])
  else
    finalize_with_signature env p.pset p.inputIndex p.program p.witnessTemplate
      signature p.signerRole broadcast

/-! ### Vault spendability and the SAP issuance precondition
(src/sdk/models.py Vault.can_issue, src/sdk/sap.py SAP.issue_certificate) -/

/-- Model of models.py Vault.can_issue: `balance >= MIN_ISSUE_SATS`. -/
def can_issue (balance : Nat) : Bool := MIN_ISSUE_SATS ≤ balance

/-- Outcome of sap.py SAP.issue_certificate. -/
inductive SapIssueResult where
  | insufficientFunds (required available : Nat)
  | vaultEmpty (address : String)
  | buildResult (r : TxResult × List Call)
deriving DecidableEq, Repr

/-- Model of sap.py SAP.issue_certificate: the balance is the sum of the
vault's UTXO values; when `can_issue` fails the source raises
`InsufficientFundsError(1046, vault.balance)` — required hard-coded to
1046 although the `can_issue` threshold is `MIN_ISSUE_SATS = 1592`; when
no UTXO is available it raises `VaultEmptyError`; only otherwise does it
reach `_build_and_sign_issue`, modelled as the `build` parameter so that
the error paths are provably independent of the engine. -/
def sap_issue_certificate (build : UTXOv → String → TxResult × List Call)
    (vaultAddress : String) (utxos : List UTXOv) (cid : String) : SapIssueResult :=
  let balance := (utxos.map fun u => u.value).sum
  if ¬ can_issue balance then .insufficientFunds 1046 balance
  else
    match utxos.head? with
    | none => .vaultEmpty vaultAddress
    | some u => .buildResult (build u cid)

/-! ### Confirmation tracker (src/sdk/confirmation.py ConfirmationTracker) -/

/-- JSON body of `GET /tx/{txid}/status`; `none` at the `get_status` level
also covers a transport failure, which `get_tx_status` maps to `None`. -/
structure TxStatusResp where
  confirmed : Bool
  blockHeight : Option Nat
  blockHash : Option String
deriving DecidableEq, Repr

/-- Transaction confirmation states (confirmation.py TxStatus). -/
inductive TxState where
  | pending
  | confirmed
  | deepConfirmed
  | notFound
  | replaced
deriving DecidableEq, Repr

/-- Confirmation status (confirmation.py ConfirmationStatus; timestamp
omitted as never set by the modelled paths). -/
structure ConfStatus where
  txid : String
  status : TxState
  confirmations : Nat
  blockHeight : Option Nat
  blockHash : Option String
deriving DecidableEq, Repr

/-- Model of ConfirmationTracker.get_status on one poll response:
NOT_FOUND for a missing transaction, PENDING while unconfirmed, else one
confirmation (the source approximates `confirmations = 1` once confirmed)
and CONFIRMED/DEEP_CONFIRMED accordingly. -/
def get_status (txid : String) (resp : Option TxStatusResp) : ConfStatus :=
  match resp with
  | none => ⟨txid, .notFound, 0, none, none⟩
  | some r =>
    if ¬ r.confirmed then ⟨txid, .pending, 0, none, none⟩
    else
      let confirmations := 1
      let st := if 6 ≤ confirmations then TxState.deepConfirmed else TxState.confirmed
      ⟨txid, st, confirmations, r.blockHeight, r.blockHash⟩

/-- Result of wait_for_confirmation: a returned status, a
`ConfirmationTimeoutError(elapsed, last_confirmations)`, a
`TransactionNotFoundError`, or exhausted fuel (proved unreachable for
positive poll intervals). -/
inductive WaitResult where
  | success (s : ConfStatus)
  | timeoutErr (txid : String) (elapsed : Nat) (lastConfirmations : Nat)
  | notFoundErr (txid : String)
  | fuelOut
deriving DecidableEq, Repr

/-- Loop body of ConfirmationTracker.wait_for_confirmation over the
sequence of poll responses: `polls i` is the ledger's answer to the i-th
`get_status` call, `elapsed` advances by `pollInterval` per iteration
(the `time.sleep`), and `nfc` counts successive NOT_FOUND polls
(`max_not_found = 3`).  At the timeout the source queries `get_status`
once more for the last confirmation count. -/
def waitLoop (txid : String) (polls : Nat → Option TxStatusResp)
    (target timeout pollInterval : Nat) : Nat → Nat → Nat → Nat → WaitResult
  | 0, _, _, _ => .fuelOut
  | fuel + 1, callIdx, elapsed, nfc =>
    if timeout ≤ elapsed then
      .timeoutErr txid elapsed (get_status txid (polls callIdx)).confirmations
    else if (get_status txid (polls callIdx)).status = .notFound ∧ 3 ≤ nfc + 1 then
      .notFoundErr txid
    else if target ≤ (get_status txid (polls callIdx)).confirmations then
      .success (get_status txid (polls callIdx))
    else
      waitLoop txid polls target timeout pollInterval fuel (callIdx + 1)
        (elapsed + pollInterval)
        (if (get_status txid (polls callIdx)).status = .notFound then nfc + 1 else 0)

/-- Model of ConfirmationTracker.wait_for_confirmation, with fuel
`timeout + 1`, which suffices for any positive poll interval. -/
def wait_for_confirmation (txid : String) (polls : Nat → Option TxStatusResp)
    (target timeout pollInterval : Nat) : WaitResult :=
  waitLoop txid polls target timeout pollInterval (timeout + 1) 0 0 0

/-! ### Shared concrete data for witnesses and counterexamples -/

/-- Engine/signer/ledger stub in which every collaborator call succeeds:
creation and binding return fixed psets, runs succeed exposing a 64-char
sig-all-hash, the signer returns 64 bytes of 0x11, extraction returns a
raw hex string and broadcast returns txid "bb". -/
def stubEnv : Env :=
  ⟨fun _ _ => .ok "pset0",
   fun _ _ _ _ _ _ _ => .ok "pset1",
   fun _ _ _ _ => .ok ⟨true, [⟨"sig_all_hash", true⟩],
     some "cccccccccccccccccccccccccccccccccccccccccccccccccccccccccccccc"⟩,
   fun _ => .ok (List.replicate 64 17),
   fun _ _ _ _ => .ok "psetF",
   fun _ => .ok "rawtxhex",
   fun raw => ⟨true, some "bb", some raw, none⟩⟩

/-- Registry with distinguishable placeholder contracts. -/
def demoReg : Registry :=
  ⟨⟨"tex1vault", "5120aa", "cmrV", "programV"⟩,
   ⟨"tex1cert", "5120bb", "cmrC", "programC"⟩,
   "asset01", "ikey"⟩

/-- Content id of scenario S1. -/
def demoCid : String := "QmYwAPJzv5CZsnA625s3Xf2nemtYgPpHdWEz79ojWnPbdG"

/-! ### Claim C1 — verify_certificate and ledger unreachability -/

/-- C1 counterexample: the claim says `verify_certificate` returns UNKNOWN
when the ledger is unreachable; on a network error the code returns VALID
(is_utxo_spent swallows the exception into "unspent"), never UNKNOWN. -/
theorem verify_certificate_netError_counterexample :
    verify_certificate (.netError "connection timed out") = CertStatus.valid ∧
    verify_certificate (.netError "connection timed out") ≠ CertStatus.unknown := by
  constructor
  · rfl
  · decide

/-- C1 (amended): verify_certificate returns REVOKED when the outspend
query reports the UTXO spent and VALID otherwise — including when the
`spent` field is absent and when the ledger is unreachable, because
is_utxo_spent maps both a missing field and a network error to `False`;
it never raises and never returns UNKNOWN. -/
theorem verify_certificate_amended :
    (∀ b : Bool, verify_certificate (.ok (some b)) =
      if b then CertStatus.revoked else CertStatus.valid) ∧
    verify_certificate (.ok none) = CertStatus.valid ∧
    (∀ m : String, verify_certificate (.netError m) = CertStatus.valid) ∧
    (∀ resp : OutspendResp, verify_certificate resp ≠ CertStatus.unknown) := by
  refine ⟨?_, rfl, fun m => rfl, ?_⟩
  · intro b
    cases b <;> rfl
  · intro resp
    rcases resp with spent | m
    · rcases spent with _ | b
      · exact (by decide : CertStatus.valid ≠ CertStatus.unknown)
      · cases b
        · exact (by decide : CertStatus.valid ≠ CertStatus.unknown)
        · exact (by decide : CertStatus.revoked ≠ CertStatus.unknown)
    · exact (by decide : CertStatus.valid ≠ CertStatus.unknown)

/-! ### Claim C4 — vault spendability and the InsufficientFunds payload -/

/-- C4: the spendability predicate does hold iff the balance reaches
MIN_ISSUE = 1592, and below it sap.py's issue_certificate fails before any
engine involvement — but the raised InsufficientFundsError carries the
HARD-CODED required = 1046, not 1592: at balance 1591 the result is
`insufficientFunds 1046 1591` for every possible builder, contradicting
the claim's required = 1592 (and the error's own refusal, since
1591 ≥ 1046). -/
theorem sap_issue_insufficient_funds_1046 :
    (∀ balance : Nat, can_issue balance = decide (1592 ≤ balance)) ∧
    (∀ (build : UTXOv → String → TxResult × List Call) (cid : String),
      sap_issue_certificate build "tex1vault" [⟨"aa", 0, 1591⟩] cid =
        .insufficientFunds 1046 1591) := by
  constructor
  · intro balance
    rfl
  · intro build cid
    rfl

/-! ### Claim C10 — decode has no upper length bound -/

/-- C10: decode accepts ATTEST and UPDATE records of every body length —
there is no 75-byte check on the decode side — while the encode-side
validate_payload_size fails exactly above 75 bytes. -/
theorem decode_no_upper_bound :
    (∀ body : List Nat,
      (decode (MAGIC ++ [VERSION, TYPE_ATTEST] ++ body)).isSome = true ∧
      (decode (MAGIC ++ [VERSION, TYPE_UPDATE] ++ body)).isSome = true) ∧
    (∀ payload : List Nat, validate_payload_size payload =
      if payload.length ≤ 75 then .ok () else .error (.payloadTooLarge payload.length)) := by
  constructor
  · intro body
    constructor <;> rfl
  · intro payload
    simp only [validate_payload_size, MAX_PAYLOAD_SIZE, MAX_OP_RETURN_SIZE, HEADER_SIZE]
    by_cases h : payload.length ≤ 75
    · rw [if_neg (by omega), if_pos h]
    · rw [if_pos (by omega), if_neg h]

/-! ### Claim C6 — witness encoding for every spending path -/

/-- C6: for every spending path and byte signature, encoding succeeds iff
the signature is exactly 64 bytes, and a successful encoding is exactly 65
bytes whose bit expansion is the path's tag bits (0 / 10 / 11 / 0 / 1,
MSB first), the 512 signature bits, and zero padding to the byte
boundary.  The hypothesis that signature entries are below 256 reflects
the Python bytes type. -/
theorem witness_encoder_c6 (p : SpendingPath) (sig : List Nat)
    (_hb : ∀ b ∈ sig, b < 256) :
    ((∃ w, encodeWitness p sig = .ok w) ↔ sig.length = 64) ∧
    (∀ w, encodeWitness p sig = .ok w →
      w.length = 65 ∧
      w.flatMap byteToBits =
        tagBits p ++ sig.flatMap byteToBits ++
          List.replicate (8 - (tagBits p).length) false) := by
  by_cases hlen : sig.length = 64
  · have hok := encodeWitness_ok p sig hlen
    have htag : (tagBits p).length = 1 ∨ (tagBits p).length = 2 := by
      cases p <;> simp [tagBits]
    have hbitlen : (tagBits p ++ sig.flatMap byteToBits ++
        List.replicate (8 - (tagBits p).length) false).length = 520 := by
      simp only [List.length_append, List.length_replicate,
        flatMap_byteToBits_length, hlen]
      omega
    have hspec := bitsToBytesCore_spec
      (tagBits p ++ sig.flatMap byteToBits ++ List.replicate (8 - (tagBits p).length) false)
      (by rw [hbitlen])
    refine ⟨⟨fun _ => hlen, fun _ => ⟨_, hok⟩⟩, ?_⟩
    intro w hw
    rw [hok] at hw
    have hw' : w = bitsToBytesCore (tagBits p ++ sig.flatMap byteToBits ++
        List.replicate (8 - (tagBits p).length) false) := by
      cases hw
      rfl
    subst hw'
    refine ⟨?_, hspec.2⟩
    have := hspec.1
    rw [hbitlen] at this
    omega
  · rw [encodeWitness_err p sig hlen]
    refine ⟨⟨?_, fun h => absurd h hlen⟩, ?_⟩
    · rintro ⟨w, hw⟩
      cases hw
    · intro w hw
      cases hw

/-- C6 witness: the theorem applied to the admin-issue path and the
64-byte all-0x11 signature. -/
theorem witness_encoder_c6_witness :
    (∀ b ∈ List.replicate 64 17, b < 256) ∧
    (((∃ w, encodeWitness .vaultAdminIssue (List.replicate 64 17) = .ok w) ↔
      (List.replicate 64 17 : List Nat).length = 64) ∧
    (∀ w, encodeWitness .vaultAdminIssue (List.replicate 64 17) = .ok w →
      w.length = 65 ∧
      w.flatMap byteToBits =
        tagBits .vaultAdminIssue ++ (List.replicate 64 17 : List Nat).flatMap byteToBits ++
          List.replicate (8 - (tagBits .vaultAdminIssue).length) false)) :=
  ⟨by decide, witness_encoder_c6 .vaultAdminIssue (List.replicate 64 17) (by decide)⟩

/-! ### Claims C2 and C3 — finalize never reaches the engine, and a
prepared transaction is not single-use -/

/-- Str-typed signature conversion always raises, whatever the length. -/
theorem encodeWitnessCore_str_error (s : List Char) (tag : List Bool) (pad : Nat) :
    ∃ e, encodeWitnessCore (signature_to_bits_of_str s) tag pad = .error e := by
  unfold encodeWitnessCore signature_to_bits_of_str
  by_cases h : s.length ≠ 64
  · rw [if_pos h]
    exact ⟨_, rfl⟩
  · rw [if_neg h]
    exact ⟨_, rfl⟩

/-- The finalize path's witness construction always raises: every template
dispatches into an encoder that first converts the (str-typed) signature. -/
theorem finalize_witness_always_error (s : List Char) (tmpl : String) (issuer : Role) :
    ∃ e, (if tmpl = "vault_issue" then encode_vault_witness_str s issuer false
      else if tmpl = "vault_drain" then encode_vault_witness_str s .admin true
      else if tmpl = "certificate" then encode_certificate_witness_str s issuer
      else .error ("Unknown witness_template: " ++ tmpl)) = .error e := by
  by_cases h1 : tmpl = "vault_issue"
  · rw [if_pos h1]
    cases issuer
    · exact encodeWitnessCore_str_error s [true, false] 6
    · exact encodeWitnessCore_str_error s [true, true] 6
  · rw [if_neg h1]
    by_cases h2 : tmpl = "vault_drain"
    · rw [if_pos h2]
      exact encodeWitnessCore_str_error s [false] 7
    · rw [if_neg h2]
      by_cases h3 : tmpl = "certificate"
      · rw [if_pos h3]
        cases issuer
        · exact encodeWitnessCore_str_error s [false] 7
        · exact encodeWitnessCore_str_error s [true] 7
      · rw [if_neg h3]
        exact ⟨_, rfl⟩

/-- finalize_with_signature always fails with no collaborator call. -/
theorem finalize_with_signature_fails (env : Env) (pset : String) (idx : Nat)
    (prog tmpl : String) (sig : List Nat) (issuer : Role) (bc : Bool) :
    (finalize_with_signature env pset idx prog tmpl sig issuer bc).1.success = false ∧
    (finalize_with_signature env pset idx prog tmpl sig issuer bc).2 = [] := by
  obtain ⟨e, he⟩ := finalize_witness_always_error (bytesToHex sig) tmpl issuer
  simp only [finalize_with_signature]
  rw [he]
  exact ⟨rfl, rfl⟩

set_option maxRecDepth 4000 in
/-- C2: for every engine behaviour, prepared-state and signature — 64-byte
or not — `finalize_with_signature` returns a failure and performs no
engine call, because it hands the witness encoder the signature's hex
STRING (128 characters for 64 bytes) where 64 bytes are demanded; at the
claim's own inputs (valid template, 64-byte signature, all-succeeding
engine) the result is the raised "Signature must be 64 bytes, got 128",
not the success the claim requires. -/
theorem finalize_with_signature_never_succeeds :
    (∀ (env : Env) (pset : String) (idx : Nat) (prog tmpl : String) (sig : List Nat)
      (issuer : Role) (bc : Bool),
      (finalize_with_signature env pset idx prog tmpl sig issuer bc).1.success = false ∧
      (finalize_with_signature env pset idx prog tmpl sig issuer bc).2 = []) ∧
    finalize_with_signature stubEnv "pset0" 0 "programV" "vault_issue"
        (List.replicate 64 17) .delegate true =
      (failResult "Signature must be 64 bytes, got 128", []) := by
  refine ⟨finalize_with_signature_fails, ?_⟩
  rfl

/-- Prepared transaction of the concrete double-finalize scenario. -/
def demoPrepared : PreparedTx :=
  ⟨.issueCertificate, 0,
   "cccccccccccccccccccccccccccccccccccccccccccccccccccccccccccccc",
   .delegate, "pub", "pset0", 0, "programV", "vault_issue", none⟩

set_option maxRecDepth 4000 in
/-- C3: the client finalize is a pure function of the prepared object
(which carries no consumed flag and is never written), so a second call
with the same prepared object behaves exactly like the first — nothing
enforces single use; moreover no call ever succeeds at all (the
str-signature slip of C2), so the claim's premise "after one successful
finalize" is unsatisfiable: for every engine, prepared state, signature,
time and broadcast flag the result is a failure, and at the concrete
scenario both the first and the repeated call return the identical
"Signature must be 64 bytes, got 128" failure instead of the second one
being rejected as consumed. -/
theorem finalize_transaction_no_single_use :
    (∀ (env : Env) (p : PreparedTx) (sig : List Nat) (now : Int) (bc : Bool),
      (finalize_transaction env p sig now bc).1.success = false) ∧
    finalize_transaction stubEnv demoPrepared (List.replicate 64 17) 0 true =
      (failResult "Signature must be 64 bytes, got 128", []) ∧
    finalize_transaction stubEnv demoPrepared (List.replicate 64 17) 1 true =
      finalize_transaction stubEnv demoPrepared (List.replicate 64 17) 0 true := by
  refine ⟨?_, rfl, rfl⟩
  intro env p sig now bc
  unfold finalize_transaction
  by_cases h1 : sig.length ≠ 64
  · rw [if_pos h1]
    rfl
  · rw [if_neg h1]
    by_cases h2 : isExpired p now
    · rw [if_pos h2]
      rfl
    · rw [if_neg h2]
      exact (finalize_with_signature_fails env p.pset p.inputIndex p.program
        p.witnessTemplate sig p.signerRole bc).1

/-! ### Claim C5 — the four issuance outputs -/

/-- Every run of the pipeline makes pset_create its first collaborator
call, with exactly the inputs and outputs it was composed with. -/
theorem executeTransaction_log_head (env : Env) (inputs : List (String × Nat))
    (outputs : List OutputDict) (contract : ContractInfo) (assetId internalKey : String)
    (utxoValue : Nat) (dummyW : List Nat)
    (witnessEncoder : List Nat → Except String (List Nat)) (broadcast : Bool) :
    ∃ rest, (executeTransaction env inputs outputs contract assetId internalKey
      utxoValue dummyW witnessEncoder broadcast).2 =
        Call.psetCreate inputs outputs :: rest := by
  simp only [executeTransaction]
  repeat' split
  all_goals exact ⟨_, rfl⟩

/-- C5: whenever TransactionBuilder.issue_certificate succeeds, the
transaction it handed to the engine was created with exactly four outputs
in this order: change of `value − 546 − 500` back to the vault address,
a 546-unit certificate output at the certificate address, the null-data
output carrying the ATTEST payload for the content id, and a 500-unit
fee output; moreover success requires `value ≥ 1592`. -/
theorem issue_certificate_outputs (env : Env) (reg : Registry) (utxo : UTXOv)
    (cid : String) (issuer : Role) (bc : Bool)
    (hs : (issue_certificate env reg utxo cid issuer bc).1.success = true) :
    1592 ≤ utxo.value ∧
    ∃ rest, (issue_certificate env reg utxo cid issuer bc).2 =
      Call.psetCreate [(utxo.txid, utxo.vout)]
        [⟨reg.vault.address, reg.assetId, utxo.value - CERT_DUST_SATS - FEE_SATS⟩,
         ⟨reg.certificate.address, reg.assetId, CERT_DUST_SATS⟩,
         ⟨"data:" ++ build_sas_attest_payload cid, reg.assetId, 0⟩,
         ⟨"fee", reg.assetId, FEE_SATS⟩] :: rest := by
  by_cases hguard : ((utxo.value : Int) - (FEE_SATS : Int) - (CERT_DUST_SATS : Int)) <
      (CERT_DUST_SATS : Int)
  · exfalso
    simp only [issue_certificate] at hs
    rw [if_pos hguard] at hs
    simp [failResult] at hs
  · have hval : 1592 ≤ utxo.value := by
      simp only [FEE_SATS, CERT_DUST_SATS] at hguard
      omega
    have htonat : ((utxo.value : Int) - (FEE_SATS : Int) - (CERT_DUST_SATS : Int)).toNat =
        utxo.value - CERT_DUST_SATS - FEE_SATS := by
      simp only [FEE_SATS, CERT_DUST_SATS]
      omega
    refine ⟨hval, ?_⟩
    simp only [issue_certificate]
    rw [if_neg hguard, htonat]
    exact executeTransaction_log_head _ _ _ _ _ _ _ _ _ _

set_option maxRecDepth 100000 in
/-- C5 witness: the S1 scenario — a 100000-unit vault UTXO, the sample
CID, the delegate path and the all-succeeding stub engine — succeeds, and
the theorem instantiates with change 100000 − 546 − 500 = 98954. -/
theorem issue_certificate_outputs_witness :
    (issue_certificate stubEnv demoReg ⟨"aa", 0, 100000⟩ demoCid .delegate true).1.success
      = true ∧
    (100000 - CERT_DUST_SATS - FEE_SATS = 98954) ∧
    (1592 ≤ (100000 : Nat) ∧
    ∃ rest, (issue_certificate stubEnv demoReg ⟨"aa", 0, 100000⟩ demoCid .delegate true).2 =
      Call.psetCreate [("aa", 0)]
        [⟨demoReg.vault.address, demoReg.assetId, 100000 - CERT_DUST_SATS - FEE_SATS⟩,
         ⟨demoReg.certificate.address, demoReg.assetId, CERT_DUST_SATS⟩,
         ⟨"data:" ++ build_sas_attest_payload demoCid, demoReg.assetId, 0⟩,
         ⟨"fee", demoReg.assetId, FEE_SATS⟩] :: rest) :=
  ⟨by rfl, by rfl,
   issue_certificate_outputs stubEnv demoReg ⟨"aa", 0, 100000⟩ demoCid .delegate true (by rfl)⟩

/-! ### Claim C7 — the failure set of encode_revoke -/

/-- ASCII whitespace, which CPython's `bytes.fromhex` may skip between
byte pairs; theorems over arbitrary strings exclude it to keep
`pyFromHex` faithful. -/
def asciiWs (c : Char) : Bool :=
  c = ' ' || c = '\t' || c = '\n' || c = '\r' || c = '\x0b' || c = '\x0c'

/-- C7 counterexample: the claim requires failure when the txid is not
exactly 64 hex characters, but `encode_revoke` accepts the 4-character
txid "aaaa" and returns a record with a 2-byte txid field — the source
never checks the txid's length. -/
theorem encode_revoke_short_txid_counterexample :
    ("aaaa" : String).length = 4 ∧
    encode_revoke "aaaa" 0 none none = .ok "5341530102aaaa0000" := by
  constructor
  · rfl
  · rfl

theorem reasonPart_ok_shape (rc : Option Int) (rb : List Nat)
    (h : reasonPart rc = .ok rb) :
    rb = rc.elim [] (fun r => [r.toNat]) ∧ (∀ r, rc = some r → 0 ≤ r ∧ r ≤ 255) := by
  rcases rc with _ | r
  · cases h
    exact ⟨rfl, fun r hr => by cases hr⟩
  · simp only [reasonPart] at h
    by_cases hr : r < 0 ∨ 255 < r
    · rw [if_pos hr] at h
      simp at h
    · rw [if_neg hr] at h
      cases h
      refine ⟨rfl, fun r' hr' => ?_⟩
      cases hr'
      omega

theorem reasonPart_ok_of (rc : Option Int)
    (hgood : ∀ r, rc = some r → 0 ≤ r ∧ r ≤ 255) :
    reasonPart rc = .ok (rc.elim [] (fun r => [r.toNat])) := by
  rcases rc with _ | r
  · rfl
  · have hb := hgood r rfl
    simp only [reasonPart]
    rw [if_neg (by omega)]
    rfl

theorem replacementPart_ok_shape (rc : Option Int) (repl : Option String)
    (rb : List Nat) (h : replacementPart rc repl = .ok rb) :
    rb = repl.elim [] (fun r => (pyFromHex r.data).getD []) ∧
    (repl.isSome = true → rc.isSome = true) ∧
    (∀ r, repl = some r → r.length = 64 ∧ (pyFromHex r.data).isSome = true) := by
  rcases repl with _ | r
  · cases h
    exact ⟨rfl, by simp, fun r hr => by cases hr⟩
  · simp only [replacementPart] at h
    by_cases h1 : rc.isNone = true
    · rw [if_pos h1] at h
      simp at h
    · rw [if_neg h1] at h
      by_cases h2 : r.length ≠ 64
      · rw [if_pos h2] at h
        simp at h
      · rw [if_neg h2] at h
        rcases h3 : pyFromHex r.data with _ | rbs
        · simp only [h3] at h
          simp at h
        · simp only [h3] at h
          cases h
          refine ⟨by simp [h3], fun _ => ?_, fun r' hr' => ?_⟩
          · rcases rc with _ | rr
            · simp at h1
            · rfl
          · cases hr'
            exact ⟨by omega, by rw [h3]; rfl⟩

theorem replacementPart_ok_of (rc : Option Int) (repl : Option String)
    (h5 : repl.isSome = true → rc.isSome = true)
    (h6 : ∀ r, repl = some r → r.length = 64 ∧ (pyFromHex r.data).isSome = true) :
    replacementPart rc repl = .ok (repl.elim [] (fun r => (pyFromHex r.data).getD [])) := by
  rcases repl with _ | r
  · rfl
  · obtain ⟨hl, hh⟩ := h6 r rfl
    have hrc : rc.isSome = true := h5 rfl
    have hnn : ¬ rc.isNone = true := by
      rcases rc with _ | rr
      · simp at hrc
      · simp
    simp only [replacementPart]
    rw [if_neg hnn, if_neg (by omega)]
    obtain ⟨rbs, hrbs⟩ := Option.isSome_iff_exists.mp hh
    simp only [hrbs]
    simp [hrbs]

theorem reason_elim_length (rc : Option Int) :
    (rc.elim [] (fun r => [r.toNat]) : List Nat).length = if rc.isSome then 1 else 0 := by
  rcases rc with _ | r <;> rfl

theorem repl_elim_length (repl : Option String)
    (h6 : ∀ r, repl = some r → r.length = 64 ∧ (pyFromHex r.data).isSome = true) :
    (repl.elim [] (fun r => (pyFromHex r.data).getD []) : List Nat).length =
      if repl.isSome then 32 else 0 := by
  rcases repl with _ | r
  · rfl
  · obtain ⟨hl, hh⟩ := h6 r rfl
    obtain ⟨rbs, hrbs⟩ := Option.isSome_iff_exists.mp hh
    have := pyFromHex_length r.data rbs hrbs
    have hlen2 : r.data.length = 64 := hl
    simp only [Option.elim, hrbs, Option.getD_some, Option.isSome_some, if_true]
    omega

/-- C7 (amended): encode_revoke succeeds exactly when the txid parses as
hex (its LENGTH is never checked — any even number of hex digits is
accepted), vout fits u16, any reason code lies in [0, 255], a replacement
txid comes with a reason code, is exactly 64 characters and parses as
hex, and the resulting payload stays within 75 bytes; on success it
returns the 5-byte header followed by txid-bytes ‖ vout(u16 BE) ‖
optional reason(1) ‖ optional replacement(32). -/
theorem encode_revoke_amended (txid : String) (vout : Int) (rc : Option Int)
    (repl : Option String)
    (_hw1 : txid.data.all (fun c => !asciiWs c) = true)
    (_hw2 : ∀ r, repl = some r → r.data.all (fun c => !asciiWs c) = true) :
    ((∃ out, encode_revoke_bytes txid vout rc repl = .ok out) ↔
      ((pyFromHex txid.data).isSome = true ∧ 0 ≤ vout ∧ vout < 65536 ∧
        (∀ r, rc = some r → 0 ≤ r ∧ r ≤ 255) ∧
        (repl.isSome = true → rc.isSome = true) ∧
        (∀ r, repl = some r → r.length = 64 ∧ (pyFromHex r.data).isSome = true) ∧
        txid.length / 2 + 2 + (if rc.isSome then 1 else 0) +
          (if repl.isSome then 32 else 0) ≤ 75)) ∧
    (∀ out, encode_revoke_bytes txid vout rc repl = .ok out →
      out = MAGIC ++ [VERSION, TYPE_REVOKE] ++ (pyFromHex txid.data).getD [] ++
        [vout.toNat / 256, vout.toNat % 256] ++
        (rc.elim [] (fun r => [r.toNat])) ++
        (repl.elim [] (fun r => (pyFromHex r.data).getD []))) := by
  have hslen : txid.length = txid.data.length := rfl
  constructor
  · constructor
    · rintro ⟨out, hout⟩
      simp only [encode_revoke_bytes] at hout
      rcases htx : pyFromHex txid.data with _ | tb
      · simp only [htx] at hout
        simp at hout
      · simp only [htx] at hout
        by_cases hv : vout < 0 ∨ 65536 ≤ vout
        · rw [if_pos hv] at hout
          simp at hout
        · rw [if_neg hv] at hout
          rcases hrp : reasonPart rc with e | rb
          · simp only [hrp] at hout
            simp at hout
          · simp only [hrp] at hout
            rcases hrep : replacementPart rc repl with e | repb
            · simp only [hrep] at hout
              simp at hout
            · simp only [hrep] at hout
              rcases hvs : validate_payload_size
                  (tb ++ [vout.toNat / 256, vout.toNat % 256] ++ rb ++ repb) with e | u
              · simp only [hvs] at hout
                simp at hout
              · obtain ⟨hrb, hrc⟩ := reasonPart_ok_shape rc rb hrp
                obtain ⟨hrepb, h5, h6⟩ := replacementPart_ok_shape rc repl repb hrep
                have htblen : 2 * tb.length = txid.data.length :=
                  pyFromHex_length txid.data tb htx
                have hsize : (tb ++ [vout.toNat / 256, vout.toNat % 256] ++ rb ++
                    repb).length ≤ 75 := by
                  simp only [validate_payload_size] at hvs
                  by_cases hgt : (tb ++ [vout.toNat / 256, vout.toNat % 256] ++ rb ++
                      repb).length > MAX_PAYLOAD_SIZE
                  · rw [if_pos hgt] at hvs
                    simp at hvs
                  · simp only [MAX_PAYLOAD_SIZE, MAX_OP_RETURN_SIZE, HEADER_SIZE] at hgt
                    omega
                refine ⟨rfl, by omega, by omega, hrc, h5, h6, ?_⟩
                have hrblen := reason_elim_length rc
                have hrepblen := repl_elim_length repl h6
                rw [hrb] at hsize
                rw [hrepb] at hsize
                simp only [List.length_append, List.length_cons, List.length_nil] at hsize
                rw [hrblen, hrepblen] at hsize
                rw [hslen]
                omega
    · rintro ⟨h1, h2, h3, h4, h5, h6, h7⟩
      obtain ⟨tb, htx⟩ := Option.isSome_iff_exists.mp h1
      have hrp := reasonPart_ok_of rc h4
      have hrep := replacementPart_ok_of rc repl h5 h6
      have htblen : 2 * tb.length = txid.data.length := pyFromHex_length txid.data tb htx
      have hgt : ¬ (tb ++ [vout.toNat / 256, vout.toNat % 256] ++
          (rc.elim [] (fun r => [r.toNat])) ++
          (repl.elim [] (fun r => (pyFromHex r.data).getD []))).length >
            MAX_PAYLOAD_SIZE := by
        have hrblen := reason_elim_length rc
        have hrepblen := repl_elim_length repl h6
        simp only [List.length_append, List.length_cons, List.length_nil,
          MAX_PAYLOAD_SIZE, MAX_OP_RETURN_SIZE, HEADER_SIZE]
        rw [hrblen, hrepblen]
        rw [hslen] at h7
        omega
      have hvs : validate_payload_size
          (tb ++ [vout.toNat / 256, vout.toNat % 256] ++
            (rc.elim [] (fun r => [r.toNat])) ++
            (repl.elim [] (fun r => (pyFromHex r.data).getD []))) = .ok () := by
        simp only [validate_payload_size]
        rw [if_neg hgt]
      refine ⟨MAGIC ++ [VERSION, TYPE_REVOKE] ++
        (tb ++ [vout.toNat / 256, vout.toNat % 256] ++ (rc.elim [] fun r => [r.toNat]) ++
          (repl.elim [] fun r => (pyFromHex r.data).getD [])), ?_⟩
      simp only [encode_revoke_bytes, htx, hrp, hrep]
      rw [if_neg (by omega)]
      simp only [hvs]
  · intro out hout
    simp only [encode_revoke_bytes] at hout
    rcases htx : pyFromHex txid.data with _ | tb
    · simp only [htx] at hout
      simp at hout
    · simp only [htx] at hout
      by_cases hv : vout < 0 ∨ 65536 ≤ vout
      · rw [if_pos hv] at hout
        simp at hout
      · rw [if_neg hv] at hout
        rcases hrp : reasonPart rc with e | rb
        · simp only [hrp] at hout
          simp at hout
        · simp only [hrp] at hout
          rcases hrep : replacementPart rc repl with e | repb
          · simp only [hrep] at hout
            simp at hout
          · simp only [hrep] at hout
            rcases hvs : validate_payload_size
                (tb ++ [vout.toNat / 256, vout.toNat % 256] ++ rb ++ repb) with e | u
            · simp only [hvs] at hout
              simp at hout
            · simp only [hvs] at hout
              cases hout
              obtain ⟨hrb, _⟩ := reasonPart_ok_shape rc rb hrp
              obtain ⟨hrepb, _, _⟩ := replacementPart_ok_shape rc repl repb hrep
              rw [hrb, hrepb]
              simp only [Option.getD_some, List.append_assoc]

/-- Concrete 64-character txid for the C7 witness. -/
def demoTxid : String := String.mk (List.replicate 64 'a')

/-- Concrete 64-character replacement txid for the C7 witness. -/
def demoRepl : String := String.mk (List.replicate 64 'e')

/-- C7 witness: the theorem applied to a 64-character txid, vout 1,
reason code 6 and a 64-character replacement txid. -/
theorem encode_revoke_amended_witness :
    (demoTxid.data.all (fun c => !asciiWs c) = true) ∧
    (∀ r, (some demoRepl : Option String) = some r →
      r.data.all (fun c => !asciiWs c) = true) ∧
    (((∃ out, encode_revoke_bytes demoTxid 1 (some 6) (some demoRepl) = .ok out) ↔
      ((pyFromHex demoTxid.data).isSome = true ∧ (0 : Int) ≤ 1 ∧ (1 : Int) < 65536 ∧
        (∀ r, (some 6 : Option Int) = some r → 0 ≤ r ∧ r ≤ 255) ∧
        ((some demoRepl : Option String).isSome = true →
          (some 6 : Option Int).isSome = true) ∧
        (∀ r, (some demoRepl : Option String) = some r →
          r.length = 64 ∧ (pyFromHex r.data).isSome = true) ∧
        demoTxid.length / 2 + 2 + (if (some 6 : Option Int).isSome then 1 else 0) +
          (if (some demoRepl : Option String).isSome then 32 else 0) ≤ 75)) ∧
    (∀ out, encode_revoke_bytes demoTxid 1 (some 6) (some demoRepl) = .ok out →
      out = MAGIC ++ [VERSION, TYPE_REVOKE] ++ (pyFromHex demoTxid.data).getD [] ++
        [(1 : Int).toNat / 256, (1 : Int).toNat % 256] ++
        ((some 6 : Option Int).elim [] (fun r => [r.toNat])) ++
        ((some demoRepl : Option String).elim [] (fun r => (pyFromHex r.data).getD [])))) :=
  ⟨by decide,
   fun r hr => by cases hr; decide,
   encode_revoke_amended demoTxid 1 (some 6) (some demoRepl) (by decide)
     (fun r hr => by cases hr; decide)⟩

/-! ### Claim C8 — decode ∘ encode_attest -/

/-- C8 counterexample: the CID "4141" parses as hex and is encoded as the
raw bytes 0x41 0x41; decoding finds those bytes UTF-8-decodable and
returns cid "AA", not the original "4141" — the round trip fails exactly
on the claim's "including when cid parses as hex" case. -/
theorem attest_roundtrip_hex_counterexample :
    encode_attest "4141" true = .ok "53415301014141" ∧
    decode_hex "53415301014141" = some (.attest "AA" 1) ∧
    ("AA" : String) ≠ "4141" := by
  refine ⟨rfl, rfl, by decide⟩

theorem utf8Encode_lt (s : String) : ∀ b ∈ utf8Encode s, b < 256 := by
  intro b hb
  simp only [utf8Encode, List.mem_flatMap] at hb
  obtain ⟨c, _, hbc⟩ := hb
  have hval : c.toNat < 0x110000 := by
    rcases char_toNat_valid c with h | ⟨h1, h2⟩
    · omega
    · omega
  exact utf8EncodeChar_lt c.toNat hval b hbc

theorem string_mk_data (s : String) : String.mk s.data = s := by
  cases s
  rfl

/-- C8 (amended): decode ∘ encode_attest is the identity on the cid for
every content id that does NOT parse as hex (the UTF-8 branch); for a
hex-parsing cid the decoder returns the UTF-8 or lowercase-hex rendering
of the raw bytes, which can differ from the original (see the
counterexample). -/
theorem attest_roundtrip_non_hex (cid : String)
    (hnothex : pyFromHex cid.data = none)
    (hsize : (utf8Encode cid).length ≤ 75)
    (_hw : cid.data.all (fun c => !asciiWs c) = true) :
    encode_attest cid true =
      .ok (String.mk (bytesToHex (MAGIC ++ [VERSION, TYPE_ATTEST] ++ utf8Encode cid))) ∧
    decode_hex (String.mk (bytesToHex (MAGIC ++ [VERSION, TYPE_ATTEST] ++ utf8Encode cid))) =
      some (.attest cid VERSION) := by
  have hbody : cidBody cid = utf8Encode cid := by
    simp only [cidBody, hnothex]
  constructor
  · have hv : validate_payload_size (utf8Encode cid) = .ok () := by
      simp only [validate_payload_size]
      rw [if_neg (by
        simp only [MAX_PAYLOAD_SIZE, MAX_OP_RETURN_SIZE, HEADER_SIZE]
        omega)]
    simp only [encode_attest, encode_attest_bytes, hbody, if_true]
    simp only [hv]
    rfl
  · have hlt : ∀ b ∈ MAGIC ++ [VERSION, TYPE_ATTEST] ++ utf8Encode cid, b < 256 := by
      intro b hb
      simp only [MAGIC, VERSION, TYPE_ATTEST, List.append_assoc, List.cons_append,
        List.nil_append, List.mem_cons] at hb
      rcases hb with h | h | h | h | h | h
      · omega
      · omega
      · omega
      · omega
      · omega
      · exact utf8Encode_lt cid b h
    have hdata : (String.mk (bytesToHex (MAGIC ++ [VERSION, TYPE_ATTEST] ++
        utf8Encode cid))).data = bytesToHex (MAGIC ++ [VERSION, TYPE_ATTEST] ++
        utf8Encode cid) := rfl
    simp only [decode_hex, hdata, pyFromHex_bytesToHex _ hlt]
    show decode (0x53 :: 0x41 :: 0x53 :: VERSION :: TYPE_ATTEST :: utf8Encode cid) =
      some (.attest cid VERSION)
    simp only [decode, decodeCid, utf8DecodeChars_utf8Encode, string_mk_data]
    rfl

/-- C8 witness: the theorem applied to the non-hex cid "Qm". -/
theorem attest_roundtrip_non_hex_witness :
    pyFromHex ("Qm" : String).data = none ∧
    (utf8Encode "Qm").length ≤ 75 ∧
    ("Qm" : String).data.all (fun c => !asciiWs c) = true ∧
    (encode_attest "Qm" true =
      .ok (String.mk (bytesToHex (MAGIC ++ [VERSION, TYPE_ATTEST] ++ utf8Encode "Qm"))) ∧
    decode_hex (String.mk (bytesToHex (MAGIC ++ [VERSION, TYPE_ATTEST] ++ utf8Encode "Qm"))) =
      some (.attest "Qm" VERSION)) :=
  ⟨by decide, by decide, by decide,
   attest_roundtrip_non_hex "Qm" (by decide) (by decide) (by decide)⟩

/-! ### Claim C9 — wait_for_confirmation -/

theorem get_status_notFound_iff (txid : String) (resp : Option TxStatusResp) :
    (get_status txid resp).status = TxState.notFound ↔ resp = none := by
  rcases resp with _ | r
  · simp [get_status]
  · simp only [get_status]
    by_cases hc : ¬ r.confirmed = true
    · rw [if_pos hc]
      simp
    · rw [if_neg hc]
      simp

/-- Postcondition of wait_for_confirmation: a success carries the first
polled status that reached the target; a timeout error carries the
elapsed time (at least the timeout) and the confirmation count of a poll;
a not-found error is preceded by three successive NOT_FOUND polls; fuel
exhaustion is impossible. -/
def WaitPost (txid : String) (polls : Nat → Option TxStatusResp)
    (target timeout : Nat) : WaitResult → Prop
  | .success s => target ≤ s.confirmations ∧
      ∃ i, s = get_status txid (polls i) ∧
        ∀ j, j < i → (get_status txid (polls j)).confirmations < target
  | .timeoutErr t elapsed last => t = txid ∧ timeout ≤ elapsed ∧
      ∃ i, last = (get_status txid (polls i)).confirmations
  | .notFoundErr t => t = txid ∧
      ∃ i, polls i = none ∧ polls (i + 1) = none ∧ polls (i + 2) = none
  | .fuelOut => False

theorem waitLoop_post (txid : String) (polls : Nat → Option TxStatusResp)
    (target timeout k : Nat) :
    ∀ (g callIdx elapsed nfc : Nat),
      timeout ≤ elapsed + g →
      nfc ≤ 2 → nfc ≤ callIdx →
      (∀ j, j < nfc → polls (callIdx - 1 - j) = none) →
      (∀ j, j < callIdx → (get_status txid (polls j)).confirmations < target) →
      WaitPost txid polls target timeout
        (waitLoop txid polls target timeout (k + 1) (g + 1) callIdx elapsed nfc) := by
  intro g
  induction g with
  | zero =>
    intro callIdx elapsed nfc hfuel _ _ _ _
    rw [waitLoop, if_pos (by omega : timeout ≤ elapsed)]
    exact ⟨rfl, by omega, callIdx, rfl⟩
  | succ g ih =>
    intro callIdx elapsed nfc hfuel hnfc2 hnfcidx hprev htarget
    rw [waitLoop]
    by_cases ht : timeout ≤ elapsed
    · rw [if_pos ht]
      exact ⟨rfl, ht, callIdx, rfl⟩
    · rw [if_neg ht]
      by_cases hnf : (get_status txid (polls callIdx)).status = .notFound ∧ 3 ≤ nfc + 1
      · rw [if_pos hnf]
        obtain ⟨hnfst, hge⟩ := hnf
        have hnfceq : nfc = 2 := by omega
        have hci : 2 ≤ callIdx := by omega
        have h0 : polls (callIdx - 1 - 0) = none := hprev 0 (by omega)
        have h1 : polls (callIdx - 1 - 1) = none := hprev 1 (by omega)
        have hc : polls callIdx = none := (get_status_notFound_iff txid _).mp hnfst
        have e1 : callIdx - 1 - 1 = callIdx - 2 := by omega
        have e2 : callIdx - 2 + 1 = callIdx - 1 - 0 := by omega
        have e3 : callIdx - 2 + 2 = callIdx := by omega
        refine ⟨rfl, callIdx - 2, ?_, ?_, ?_⟩
        · rw [← e1]
          exact h1
        · rw [e2]
          exact h0
        · rw [e3]
          exact hc
      · rw [if_neg hnf]
        by_cases htg : target ≤ (get_status txid (polls callIdx)).confirmations
        · rw [if_pos htg]
          exact ⟨htg, callIdx, rfl, htarget⟩
        · rw [if_neg htg]
          apply ih
          · omega
          · by_cases hsn : (get_status txid (polls callIdx)).status = .notFound
            · rw [if_pos hsn]
              have h3 : ¬ 3 ≤ nfc + 1 := fun hx => hnf ⟨hsn, hx⟩
              omega
            · rw [if_neg hsn]
              omega
          · by_cases hsn : (get_status txid (polls callIdx)).status = .notFound
            · rw [if_pos hsn]
              omega
            · rw [if_neg hsn]
              omega
          · intro j hj
            by_cases hsn : (get_status txid (polls callIdx)).status = .notFound
            · rw [if_pos hsn] at hj
              rcases Nat.eq_zero_or_pos j with hj0 | hjpos
              · subst hj0
                have ec : callIdx + 1 - 1 - 0 = callIdx := by omega
                rw [ec]
                exact (get_status_notFound_iff txid _).mp hsn
              · have ec : callIdx + 1 - 1 - j = callIdx - 1 - (j - 1) := by omega
                rw [ec]
                exact hprev (j - 1) (by omega)
            · rw [if_neg hsn] at hj
              omega
          · intro j hj
            rcases Nat.lt_succ_iff_lt_or_eq.mp hj with hlt | heq
            · exact htarget j hlt
            · subst heq
              omega

/-- C9: wait_for_confirmation (for any positive poll interval, written
k + 1) either returns the first polled status whose confirmation count
reached the target, or fails after the timeout with a
ConfirmationTimeout carrying the elapsed time (at least the timeout) and
a last-poll confirmation count, or fails with TransactionNotFound after
three successive NOT_FOUND polls, and its fuel never runs out; moreover
the error paths do fire: with the transaction never found the third
successive poll raises TransactionNotFound, and with the transaction
forever unconfirmed the wait raises ConfirmationTimeout carrying
elapsed ≥ timeout and the last confirmation count 0. -/
theorem wait_for_confirmation_c9 :
    (∀ (txid : String) (polls : Nat → Option TxStatusResp) (target timeout k : Nat),
      WaitPost txid polls target timeout
        (wait_for_confirmation txid polls target timeout (k + 1))) ∧
    wait_for_confirmation "tx" (fun _ => none) 1 50 10 = .notFoundErr "tx" ∧
    wait_for_confirmation "tx" (fun _ => some ⟨false, none, none⟩) 1 25 10 =
      .timeoutErr "tx" 30 0 := by
  refine ⟨?_, rfl, rfl⟩
  intro txid polls target timeout k
  rw [wait_for_confirmation]
  exact waitLoop_post txid polls target timeout k timeout 0 0 0
    (by omega) (by omega) (by omega)
    (fun j hj => absurd hj (by omega))
    (fun j hj => absurd hj (by omega))

/-- Poll sequence for the C9 witness: not found twice, then confirmed. -/
def demoPolls (i : Nat) : Option TxStatusResp :=
  if i < 2 then none else some ⟨true, some 100, some "blockhash"⟩

/-- C9 witness: the theorem applied to the demo polls with target 1,
timeout 50 and poll interval 10; the run returns the first confirmed
status. -/
theorem wait_for_confirmation_c9_witness :
    WaitPost "tx" demoPolls 1 50
      (wait_for_confirmation "tx" demoPolls 1 50 10) :=
  wait_for_confirmation_c9.1 "tx" demoPolls 1 50 9

end SAS
